import Mathlib

/-
Verification of the FreshMart admin portal against its design document.

The development shallowly embeds the relevant JavaScript source:
  * the orders module (orders page: real-time listener, stats, filters,
    pagination, status updates, CSV export),
  * the users module (users page: real-time listener, filters, CSV export),
  * the Cloud Functions backing admin management (toggleAdminStatus,
    deleteAdmin and their role gates),
  * the auth module (checkAdminRole, protectRoute).

Modelling conventions:
  * Machine timestamps (JS `Date` values) are modelled as `Int` epoch
    milliseconds; a JS-falsy / absent `createdAt` is `Option.none`.
  * Strings are Lean `String`; JS `toLowerCase` is mapped over the
    character list (the source only ever compares ASCII identifiers),
    and JS `String.includes` is a contiguous-subsequence check on the
    character list.
  * Stateful Cloud Functions are explicit state-passing functions that
    return the outcome (success or the thrown HttpsError code) together
    with the post-call state; a throw before any write returns the
    unchanged state, mirroring the sequential control flow of the source.
-/

namespace FreshMart

/-- JS `String.prototype.toLowerCase`, restricted to the per-character
ASCII fold performed by `Char.toLower` (all identifiers compared in the
source are ASCII). -/
def lowerStr (s : String) : String := String.mk (s.data.map Char.toLower)

/-- Contiguous-subsequence test on character lists: `seqIn n h` is true
iff `n` occurs as a contiguous run inside `h`. -/
def seqIn (n : List Char) : List Char → Bool
  | [] => n.isEmpty
  | c :: t => List.isPrefixOf n (c :: t) || seqIn n t

/-- JS `hay.includes(needle)`. -/
def jsIncludes (hay needle : String) : Bool := seqIn needle.data hay.data

/-! ## Order data model (orders module, `part_003`) -/

/-- The five order-status values the portal stores and compares. -/
inductive OrderStatus
  | confirmed
  | packed
  | out_for_delivery
  | delivered
  | cancelled
deriving DecidableEq, Repr, Fintype

/-- One `statusHistory` entry as written by `changeStatus`. -/
structure HistoryEntry where
  status : OrderStatus
  timestamp : String
  message : String
  updatedBy : String
deriving DecidableEq, Repr

/-- The `address` sub-document of an order; each field may be absent. -/
structure Address where
  name : Option String
  phone : Option String
  email : Option String
deriving DecidableEq, Repr

/-- An order document as the orders module reads it.  `createdAt` is an
epoch-millisecond instant (`none` when the field is absent or JS-falsy);
`total` is `none` when the field is absent (the source reads it as
`order.total || 0`). -/
structure Order where
  id : String
  status : OrderStatus
  total : Option Int
  createdAt : Option Int
  address : Option Address
  statusHistory : List HistoryEntry
  updatedAt : Option String
deriving DecidableEq, Repr

/-- `formatStatus` from `part_003` (display label for a status). -/
def formatStatus : OrderStatus → String
  | .confirmed => "Confirmed"
  | .packed => "Packed"
  | .out_for_delivery => "Out for Delivery"
  | .delivered => "Delivered"
  | .cancelled => "Cancelled"

/-- `changeStatus` from `part_003` lines 508-544.  It unconditionally
sets `status` and `updatedAt` and appends a history entry via
`arrayUnion`; the source performs no check that the transition is legal
and has no failure outcome other than a remote write error. -/
def changeStatus (o : Order) (newStatus : OrderStatus) (nowIso adminEmail : String) :
    Order :=
  { o with
    status := newStatus
    updatedAt := some nowIso
    statusHistory := o.statusHistory ++
      [{ status := newStatus
         timestamp := nowIso
         message := "Order " ++ formatStatus newStatus ++ " by admin"
         updatedBy := adminEmail }] }

/-- The status-action buttons rendered by `viewOrder` (`part_003` lines
392-454) for an order currently in the given status: the whole action
block is omitted for `cancelled` and `delivered`; otherwise exactly the
immediate-successor button and the cancel button are rendered. -/
def statusButtons : OrderStatus → List OrderStatus
  | .confirmed => [.packed, .cancelled]
  | .packed => [.out_for_delivery, .cancelled]
  | .out_for_delivery => [.delivered, .cancelled]
  | .delivered => []
  | .cancelled => []

/-- The immediate forward successor in the chain
`confirmed -> packed -> out_for_delivery -> delivered`. -/
def forwardSucc : OrderStatus → Option OrderStatus
  | .confirmed => some .packed
  | .packed => some .out_for_delivery
  | .out_for_delivery => some .delivered
  | .delivered => none
  | .cancelled => none

/-- The legal-edge relation exactly as the spec words it: `b` is the
immediate forward successor of `a`, or `b` is `cancelled` and `a` is
neither `delivered` nor `cancelled`.  (Stated from the spec for
comparison with the source behaviour.) -/
def specLegalTransition (a b : OrderStatus) : Bool :=
  forwardSucc a = some b ||
    (b = .cancelled && !(a = .delivered) && !(a = .cancelled))

/-- A concrete delivered order used to exhibit that `changeStatus`
performs no validation. -/
def deliveredOrder : Order :=
  { id := "ord1"
    status := .delivered
    total := some 100
    createdAt := some 1000
    address := none
    statusHistory := []
    updatedAt := none }

/-- C1 counterexample: the edge `delivered -> confirmed` is illegal per
the spec's chain, yet `changeStatus` applied to a delivered order with
target `confirmed` succeeds: it overwrites the status and appends to the
history instead of failing with `InvalidTransition` and leaving the
order unchanged. -/
theorem changeStatus_no_validation_counterexample :
    specLegalTransition .delivered .confirmed = false ∧
    (changeStatus deliveredOrder .confirmed "t1" "a@freshmart").status = .confirmed ∧
    (changeStatus deliveredOrder .confirmed "t1" "a@freshmart").statusHistory ≠
      deliveredOrder.statusHistory := by
  refine ⟨rfl, rfl, ?_⟩
  decide

/-- C1 (amended): `changeStatus` itself validates nothing — for every
current/target pair it succeeds, setting the status, refreshing
`updatedAt` and appending the history entry; the legal-edge restriction
of the chain `confirmed -> packed -> out_for_delivery -> delivered`
(plus cancellation from any non-terminal state) is enforced only by the
UI, which renders an action button for target `b` on an order in status
`a` iff that edge is legal. -/
theorem changeStatus_unvalidated_ui_enforces_edges
    (o : Order) (b : OrderStatus) (t e : String) :
    (changeStatus o b t e).status = b ∧
    (changeStatus o b t e).updatedAt = some t ∧
    (changeStatus o b t e).statusHistory = o.statusHistory ++
      [{ status := b
         timestamp := t
         message := "Order " ++ formatStatus b ++ " by admin"
         updatedBy := e }] ∧
    (∀ a c : OrderStatus, c ∈ statusButtons a ↔ specLegalTransition a c = true) := by
  refine ⟨rfl, rfl, rfl, ?_⟩
  decide

/-! ## Admin-management Cloud Functions (`functions/index.js`)

The Firestore audit metadata the functions write alongside their main
effect (`updatedAt`/`updatedBy` server timestamps) is opaque external
time and is not modelled; no claim mentions it. -/

/-- The `HttpsError` codes the Cloud Functions construct. -/
inductive ErrCode
  | unauthenticated
  | permissionDenied
  | invalidArgument
  | alreadyExists
  | failedPrecondition
  | notFound
  | internal
deriving DecidableEq, Repr

/-- An `HttpsError` as surfaced to the client: code plus message. -/
abbrev HErr := ErrCode × String

deriving instance DecidableEq for Except

/-- One document of the Firestore `admins` collection. -/
structure AdminRecord where
  id : String
  email : String
  role : String
  disabled : Bool
deriving DecidableEq, Repr

/-- One account at the identity provider (Firebase Auth). -/
structure AuthUser where
  uid : String
  disabled : Bool
deriving DecidableEq, Repr

/-- The state the admin-management functions read and write: the
`admins` collection and the identity provider's account set. -/
structure AdminState where
  admins : List AdminRecord
  authUsers : List AuthUser
deriving DecidableEq, Repr

/-- The caller's decoded token (`context.auth`): uid and `role` claim;
`none` models an unauthenticated invocation. -/
structure Caller where
  uid : String
  role : Option String
deriving DecidableEq, Repr

/-- `verifySuperAdmin` from `functions/index.js` lines 14-25: throws
`unauthenticated` without a caller, `permission-denied` unless the
token's role claim is `super_admin`. -/
def verifySuperAdmin : Option Caller → Except HErr Caller
  | none => .error (.unauthenticated, "User must be authenticated")
  | some c =>
    if c.role = some "super_admin" then .ok c
    else .error (.permissionDenied, "Only super admins can perform this action")

/-- Number of non-disabled `super_admin` documents, i.e. the size of the
query `admins.where(role == super_admin).where(disabled == false)`. -/
def nonDisabledSuperAdmins (st : AdminState) : Nat :=
  (st.admins.filter (fun r => r.role == "super_admin" && !r.disabled)).length

/-- The code of the error `deleteAdmin` ends up surfacing, if any. -/
def errCodeOf (r : Except HErr Unit) : Option ErrCode :=
  match r with
  | .error e => some e.1
  | .ok _ => none

/-- `toggleAdminStatus` from `functions/index.js` lines 137-171.  After
the role gate and the missing-id / self-target checks (all thrown before
the `try` block, so their codes surface unchanged), the function
unconditionally disables/enables the Auth account and then the Firestore
document; any error inside the `try` — including an unknown uid or a
missing document — is caught and rethrown as `internal`.  There is no
last-super-admin check on this path. -/
def toggleAdminStatus (st : AdminState) (ctx : Option Caller) (adminId : String)
    (disable : Bool) : Except HErr Unit × AdminState :=
  match verifySuperAdmin ctx with
  | .error e => (.error e, st)
  | .ok c =>
    if adminId = "" then (.error (.invalidArgument, "Admin ID is required"), st)
    else if adminId = c.uid then
      (.error (.invalidArgument, "Cannot disable your own account"), st)
    else if (st.authUsers.find? (fun u => u.uid == adminId)).isSome then
      let newAuth := st.authUsers.map
        (fun u => if u.uid == adminId then { u with disabled := disable } else u)
      let st1 : AdminState := { st with authUsers := newAuth }
      if (st1.admins.find? (fun r => r.id == adminId)).isSome then
        let newAdmins := st1.admins.map
          (fun r => if r.id == adminId then { r with disabled := disable } else r)
        (.ok (), { st1 with admins := newAdmins })
      else
        (.error (.internal, "No document to update"), st1)
    else
      (.error (.internal, "There is no user record corresponding to the provided identifier."), st)

/-- `deleteAdmin` from `functions/index.js` lines 177-230.  The role
gate and missing-id / self-target checks throw before the `try` block.
Inside the `try`, when the target document exists with role
`super_admin` and at most one non-disabled super_admin document exists,
the code throws `HttpsError('failed-precondition', "Cannot delete the
last super admin")` — but that throw is caught by the function's own
`catch`, whose `error.code` test only recognizes `auth/user-not-found`,
so the client receives code `internal` with the original message.
Otherwise the Auth account and the document are deleted (a missing Auth
account is treated as already deleted). -/
def deleteAdmin (st : AdminState) (ctx : Option Caller) (adminId : String) :
    Except HErr Unit × AdminState :=
  match verifySuperAdmin ctx with
  | .error e => (.error e, st)
  | .ok c =>
    if adminId = "" then (.error (.invalidArgument, "Admin ID is required"), st)
    else if adminId = c.uid then
      (.error (.invalidArgument, "Cannot delete your own account"), st)
    else
      let targetIsSuper : Bool :=
        match st.admins.find? (fun r => r.id == adminId) with
        | some r => r.role == "super_admin"
        | none => false
      if targetIsSuper && nonDisabledSuperAdmins st ≤ 1 then
        (.error (.internal, "Cannot delete the last super admin"), st)
      else
        (.ok (), { admins := st.admins.filter (fun r => !(r.id == adminId))
                   authUsers := st.authUsers.filter (fun u => !(u.uid == adminId)) })

/-- A super_admin caller whose own document is not in the store. -/
def bossCaller : Caller := { uid := "boss", role := some "super_admin" }

/-- A store whose only non-disabled super_admin is the record `s1`. -/
def lastSuperState : AdminState :=
  { admins := [{ id := "s1", email := "s1@freshmart", role := "super_admin", disabled := false }]
    authUsers := [{ uid := "s1", disabled := false }] }

/-- A store with two non-disabled super_admin records `s1`, `s2`. -/
def twoSuperState : AdminState :=
  { admins := [
      { id := "s1", email := "s1@freshmart", role := "super_admin", disabled := false },
      { id := "s2", email := "s2@freshmart", role := "super_admin", disabled := false }],
    authUsers := [{ uid := "s1", disabled := false }, { uid := "s2", disabled := false }] }

/-- C2: at the failing input — an authenticated super_admin deleting the
sole remaining non-disabled super_admin record — the deletion is indeed
blocked with nothing deleted, but the surfaced error code is `internal`
(the function's catch-all rewraps its own failed-precondition throw),
not `FailedPrecondition`; only the message survives.  With two
non-disabled super_admins the deletion succeeds as claimed. -/
theorem deleteAdmin_last_super_surfaces_internal :
    nonDisabledSuperAdmins lastSuperState = 1 ∧
    deleteAdmin lastSuperState (some bossCaller) "s1" =
      (.error (.internal, "Cannot delete the last super admin"), lastSuperState) ∧
    2 ≤ nonDisabledSuperAdmins twoSuperState ∧
    (deleteAdmin twoSuperState (some bossCaller) "s1").1 = .ok () ∧
    (deleteAdmin twoSuperState (some bossCaller) "s1").2.admins =
      [{ id := "s2", email := "s2@freshmart", role := "super_admin", disabled := false }] := by
  refine ⟨by decide, by decide, by decide, by decide, by decide⟩

/-- C3: at the failing input — an authenticated super_admin disabling
the last remaining non-disabled super_admin record (a target other than
the caller) — `toggleAdminStatus` succeeds and leaves the store with
zero non-disabled super_admins, violating the invariant the spec says
this call must preserve. -/
theorem toggleAdminStatus_disables_last_super :
    nonDisabledSuperAdmins lastSuperState = 1 ∧
    (toggleAdminStatus lastSuperState (some bossCaller) "s1" true).1 = .ok () ∧
    nonDisabledSuperAdmins (toggleAdminStatus lastSuperState (some bossCaller) "s1" true).2 = 0 := by
  refine ⟨by decide, by decide, by decide⟩

/-- C4: for an authenticated super_admin caller, a self-targeted
disable (`toggleAdminStatus(self, true)`) and a self-targeted
`deleteAdmin(self)` both fail with `InvalidArgument` and return the
store unchanged.  (When the caller's uid is the empty string the
missing-id check fires first, still with `InvalidArgument`.) -/
theorem self_disable_delete_invalid_argument
    (st : AdminState) (c : Caller) (adminId : String)
    (hrole : c.role = some "super_admin") (hid : adminId = c.uid) :
    errCodeOf (toggleAdminStatus st (some c) adminId true).1 = some .invalidArgument ∧
    (toggleAdminStatus st (some c) adminId true).2 = st ∧
    errCodeOf (deleteAdmin st (some c) adminId).1 = some .invalidArgument ∧
    (deleteAdmin st (some c) adminId).2 = st := by
  subst hid
  by_cases hu : c.uid = "" <;>
    simp [toggleAdminStatus, deleteAdmin, verifySuperAdmin, hrole, hu, errCodeOf]

/-- C4 witness: the theorem applied at a concrete store and caller. -/
theorem self_disable_delete_invalid_argument_witness :
    errCodeOf (toggleAdminStatus lastSuperState (some bossCaller) "boss" true).1 =
      some .invalidArgument ∧
    (toggleAdminStatus lastSuperState (some bossCaller) "boss" true).2 = lastSuperState ∧
    errCodeOf (deleteAdmin lastSuperState (some bossCaller) "boss").1 =
      some .invalidArgument ∧
    (deleteAdmin lastSuperState (some bossCaller) "boss").2 = lastSuperState :=
  self_disable_delete_invalid_argument lastSuperState bossCaller "boss" rfl rfl

/-! ## Auth module (`admin/js/auth.js`) -/

/-- A signed-in identity as `onAuthStateChanged` delivers it. -/
structure UserInfo where
  uid : String
  email : String
deriving DecidableEq, Repr

/-- The result of `user.getIdTokenResult(true)`: the freshly fetched
custom claims (only the `role` claim matters here; `none` when no role
claim is present). -/
structure TokenResult where
  role : Option String
deriving DecidableEq, Repr

/-- The value `checkAdminRole` returns for a recognized role. -/
structure AdminData where
  uid : String
  email : String
  role : String
  isSuperAdmin : Bool
deriving DecidableEq, Repr

/-- `checkAdminRole` from `auth.js` lines 19-40.  The forced-refresh
claim fetch is passed as a function of the user; a rejected fetch is an
`Except.error`, which the source catches and maps to `null`, exactly as
a missing or unrecognized role claim is. -/
def checkAdminRole (user : Option UserInfo)
    (fetchClaims : UserInfo → Except String TokenResult) : Option AdminData :=
  match user with
  | none => none
  | some u =>
    match fetchClaims u with
    | .error _ => none
    | .ok tr =>
      match tr.role with
      | some r =>
        if r = "super_admin" || r = "admin" then
          some { uid := u.uid, email := u.email, role := r,
                 isSuperAdmin := r == "super_admin" }
        else none
      | none => none

/-- What the route guard does with one auth-state event. -/
inductive RouteOutcome
  | redirectLogin
  | signOutAndRedirect
  | proceed (adminData : AdminData)
deriving DecidableEq, Repr

/-- `protectRoute` from `auth.js` lines 76-96, as a function of one
auth-state event: no user redirects to the login page; a user whose role
resolution returns `null` is signed out globally and redirected to the
login page; otherwise the page callback runs with the admin data. -/
def protectRoute (user : Option UserInfo)
    (fetchClaims : UserInfo → Except String TokenResult) : RouteOutcome :=
  match user with
  | none => .redirectLogin
  | some u =>
    match checkAdminRole (some u) fetchClaims with
    | none => .signOutAndRedirect
    | some d => .proceed d

/-- C5: when the freshly fetched role claim is neither `admin` nor
`super_admin` (including absent), `checkAdminRole` returns `null` and
the route guard on a privileged page signs the user out and redirects to
login; when it is one of the two, `checkAdminRole` returns the
`{uid, email, role, isSuperAdmin}` record with `isSuperAdmin` true iff
the claim is `super_admin`, and the guard proceeds. -/
theorem checkAdminRole_protectRoute_role_gate
    (u : UserInfo) (fetchClaims : UserInfo → Except String TokenResult)
    (tr : TokenResult) (hfetch : fetchClaims u = .ok tr) :
    (tr.role ≠ some "super_admin" → tr.role ≠ some "admin" →
      checkAdminRole (some u) fetchClaims = none ∧
      protectRoute (some u) fetchClaims = .signOutAndRedirect) ∧
    (∀ r : String, tr.role = some r → (r = "super_admin" ∨ r = "admin") →
      checkAdminRole (some u) fetchClaims =
        some { uid := u.uid, email := u.email, role := r,
               isSuperAdmin := r == "super_admin" } ∧
      protectRoute (some u) fetchClaims =
        .proceed { uid := u.uid, email := u.email, role := r,
                   isSuperAdmin := r == "super_admin" } ∧
      ((r == "super_admin") = true ↔ r = "super_admin")) := by
  constructor
  · intro hns hna
    have hcheck : checkAdminRole (some u) fetchClaims = none := by
      simp only [checkAdminRole, hfetch]
      match hr : tr.role with
      | none => rfl
      | some r =>
        have h1 : ¬ r = "super_admin" := fun h => hns (by rw [hr, h])
        have h2 : ¬ r = "admin" := fun h => hna (by rw [hr, h])
        simp [h1, h2]
    exact ⟨hcheck, by simp only [protectRoute, hcheck]⟩
  · intro r hr hor
    have hcond : (r = "super_admin" || r = "admin") = true := by
      rcases hor with h | h <;> simp [h]
    have hcheck : checkAdminRole (some u) fetchClaims =
        some { uid := u.uid, email := u.email, role := r,
               isSuperAdmin := r == "super_admin" } := by
      simp only [checkAdminRole, hfetch, hr, hcond, if_pos]
    refine ⟨hcheck, by simp only [protectRoute, hcheck], ?_⟩
    simp [beq_iff_eq]

/-- C5 witness: the theorem applied at concrete identities, once with an
unrecognized role claim (`"viewer"`) and once with the `admin` claim. -/
theorem checkAdminRole_protectRoute_role_gate_witness :
    (checkAdminRole (some { uid := "u1", email := "u1@freshmart" })
        (fun _ => .ok { role := some "viewer" }) = none ∧
      protectRoute (some { uid := "u1", email := "u1@freshmart" })
        (fun _ => .ok { role := some "viewer" }) = .signOutAndRedirect) ∧
    checkAdminRole (some { uid := "u2", email := "u2@freshmart" })
        (fun _ => .ok { role := some "admin" }) =
      some { uid := "u2", email := "u2@freshmart", role := "admin",
             isSuperAdmin := false } := by
  constructor
  · exact (checkAdminRole_protectRoute_role_gate
      { uid := "u1", email := "u1@freshmart" } (fun _ => .ok { role := some "viewer" })
      { role := some "viewer" } rfl).1 (by decide) (by decide)
  · have h := (checkAdminRole_protectRoute_role_gate
      { uid := "u2", email := "u2@freshmart" } (fun _ => .ok { role := some "admin" })
      { role := some "admin" } rfl).2 "admin" rfl (Or.inr rfl)
    exact h.1

/-- C10: a rejected claim fetch (e.g. a transient network failure during
the forced token refresh) is caught by `checkAdminRole` and mapped to
`null` — the same value as "no role claim present" — so the route guard
signs the user out and redirects to login. -/
theorem checkAdminRole_fetch_error_like_no_role
    (u : UserInfo) (fetchClaims : UserInfo → Except String TokenResult)
    (msg : String) (hfetch : fetchClaims u = .error msg) :
    checkAdminRole (some u) fetchClaims = none ∧
    protectRoute (some u) fetchClaims = .signOutAndRedirect ∧
    checkAdminRole (some u) fetchClaims =
      checkAdminRole (some u) (fun _ => .ok { role := none }) := by
  have hcheck : checkAdminRole (some u) fetchClaims = none := by
    simp only [checkAdminRole, hfetch]
  exact ⟨hcheck, by simp only [protectRoute, hcheck], by rw [hcheck]; rfl⟩

/-- C10 witness: the theorem applied to a concrete user whose claim
fetch fails with a network error message. -/
theorem checkAdminRole_fetch_error_like_no_role_witness :
    checkAdminRole (some { uid := "u1", email := "u1@freshmart" })
        (fun _ => .error "network") = none ∧
    protectRoute (some { uid := "u1", email := "u1@freshmart" })
        (fun _ => .error "network") = .signOutAndRedirect ∧
    checkAdminRole (some { uid := "u1", email := "u1@freshmart" })
        (fun _ => .error "network") =
      checkAdminRole (some { uid := "u1", email := "u1@freshmart" })
        (fun _ => .ok { role := none }) :=
  checkAdminRole_fetch_error_like_no_role
    { uid := "u1", email := "u1@freshmart" } (fun _ => .error "network") "network" rfl

/-! ## Order statistics (`updateStats`, `part_003` lines 84-117; the
dashboard's `loadOrderStats`, `dashboard.js` lines 112-148, computes the
same pending and revenue expressions without the delivered counter). -/

/-- The counters `updateStats` accumulates. -/
structure OrderStats where
  totalOrders : Nat
  pendingOrders : Nat
  deliveredOrders : Nat
  todayRevenue : Int
deriving DecidableEq, Repr

/-- Pending test from the source:
`['confirmed','packed','out_for_delivery'].includes(order.status)`. -/
def isPendingStatus (s : OrderStatus) : Bool :=
  s == .confirmed || s == .packed || s == .out_for_delivery

/-- Revenue test from the source: `orderDate && orderDate >= today &&
order.status !== 'cancelled'` (a missing `createdAt` yields a null
`orderDate` and is skipped). -/
def countsForTodayRevenue (todayStart : Int) (o : Order) : Bool :=
  (match o.createdAt with
    | some t => decide (todayStart ≤ t)
    | none => false) && !(o.status == .cancelled)

/-- One iteration of the `allOrders.forEach` loop in `updateStats`. -/
def updateStatsStep (todayStart : Int) (acc : OrderStats) (o : Order) : OrderStats :=
  { totalOrders := acc.totalOrders + 1
    pendingOrders := acc.pendingOrders + (if isPendingStatus o.status then 1 else 0)
    deliveredOrders := acc.deliveredOrders + (if o.status == .delivered then 1 else 0)
    todayRevenue := acc.todayRevenue +
      (if countsForTodayRevenue todayStart o then o.total.getD 0 else 0) }

/-- `updateStats` from `part_003` lines 84-117, with the DOM writes
dropped; `todayStart` is the `new Date(); setHours(0,0,0,0)` instant
(local midnight of the current day). -/
def updateStats (orders : List Order) (todayStart : Int) : OrderStats :=
  orders.foldl (updateStatsStep todayStart)
    { totalOrders := 0, pendingOrders := 0, deliveredOrders := 0, todayRevenue := 0 }

/-- Today's revenue as the spec words it: the sum of `total` over orders
created at or after local midnight whose status is not `cancelled`. -/
def specTodayRevenue (orders : List Order) (todayStart : Int) : Int :=
  ((orders.filter (countsForTodayRevenue todayStart)).map (fun o => o.total.getD 0)).sum

/-- The running fold of `updateStats` adds the declarative counts to any
accumulator. -/
theorem updateStats_foldl (todayStart : Int) (orders : List Order) :
    ∀ acc : OrderStats,
      orders.foldl (updateStatsStep todayStart) acc =
        { totalOrders := acc.totalOrders + orders.length
          pendingOrders := acc.pendingOrders +
            orders.countP (fun o => isPendingStatus o.status)
          deliveredOrders := acc.deliveredOrders +
            orders.countP (fun o => o.status == .delivered)
          todayRevenue := acc.todayRevenue + specTodayRevenue orders todayStart } := by
  induction orders with
  | nil => intro acc; simp [specTodayRevenue]
  | cons o rest ih =>
    intro acc
    rw [List.foldl_cons, ih]
    simp only [updateStatsStep, List.length_cons, List.countP_cons, specTodayRevenue,
      List.filter_cons, OrderStats.mk.injEq]
    refine ⟨by omega, ?_, ?_, ?_⟩
    · by_cases hp : isPendingStatus o.status <;> simp [hp] <;> omega
    · by_cases hd : (o.status == OrderStatus.delivered) = true <;> simp [hd] <;> omega
    · by_cases hr : countsForTodayRevenue todayStart o = true <;> simp [hr] <;> ring

/-- The concrete revenue example from the spec: totals
[100 (today, confirmed), 200 (today, cancelled), 50 (yesterday,
confirmed)] with local midnight at 1000. -/
def revenueExampleOrders : List Order :=
  [{ id := "o1", status := .confirmed, total := some 100, createdAt := some 1500,
     address := none, statusHistory := [], updatedAt := none },
   { id := "o2", status := .cancelled, total := some 200, createdAt := some 1200,
     address := none, statusHistory := [], updatedAt := none },
   { id := "o3", status := .confirmed, total := some 50, createdAt := some 500,
     address := none, statusHistory := [], updatedAt := none }]

/-- C6: for every order set, `updateStats` computes pending as the count
of `{confirmed, packed, out_for_delivery}` statuses, delivered as the
count of `delivered`, and today's revenue as the sum of `total` over
orders created at or after local midnight that are not `cancelled`; on
the spec's example the revenue is 100. -/
theorem updateStats_matches_spec (orders : List Order) (todayStart : Int) :
    (updateStats orders todayStart).totalOrders = orders.length ∧
    (updateStats orders todayStart).pendingOrders =
      orders.countP (fun o => isPendingStatus o.status) ∧
    (updateStats orders todayStart).deliveredOrders =
      orders.countP (fun o => o.status == .delivered) ∧
    (updateStats orders todayStart).todayRevenue =
      specTodayRevenue orders todayStart ∧
    (updateStats revenueExampleOrders 1000).todayRevenue = 100 ∧
    (updateStats revenueExampleOrders 1000).pendingOrders = 2 ∧
    (updateStats revenueExampleOrders 1000).deliveredOrders = 0 := by
  have h := updateStats_foldl todayStart orders
    { totalOrders := 0, pendingOrders := 0, deliveredOrders := 0, todayRevenue := 0 }
  refine ⟨?_, ?_, ?_, ?_, by decide, by decide, by decide⟩ <;>
    simp [updateStats, h]

/-! ## Order filtering and pagination (`applyFilters` / `renderTable` /
`changePage`, `part_003` lines 120-163, 166-247, 583-587) -/

/-- JS `String.prototype.trim`. -/
def jsTrim (s : String) : String :=
  String.mk (((s.data.dropWhile Char.isWhitespace).reverse.dropWhile Char.isWhitespace).reverse)

/-- JS truthiness-guarded field test `field && pred(field)`: an absent
field or the empty string is falsy. -/
def optTruthy (x : Option String) (g : String → Bool) : Bool :=
  match x with
  | some s => !(s == "") && g s
  | none => false

/-- The named date-range dropdown values of the orders page. -/
inductive DateFilter
  | all
  | today
  | week
  | month
deriving DecidableEq, Repr

/-- The instants the filter code computes from `new Date()`:
`todayStart` is local midnight (`setHours(0,0,0,0)`), `weekAgo` is
`setDate(now.getDate() - 7)`, `monthAgo` is
`setMonth(now.getMonth() - 1)`. -/
structure TimeCtx where
  todayStart : Int
  weekAgo : Int
  monthAgo : Int
deriving DecidableEq, Repr

/-- The range start the source compares `orderDate >=` against (unused
for `all`). -/
def rangeStart (ctx : TimeCtx) : DateFilter → Int
  | .all => 0
  | .today => ctx.todayStart
  | .week => ctx.weekAgo
  | .month => ctx.monthAgo

/-- The three filter controls of the orders page; `none` for the status
dropdown models its empty no-op option. -/
structure OrderFilters where
  search : String
  status : Option OrderStatus
  date : DateFilter
deriving DecidableEq, Repr

/-- The `matchesSearch` clause of `applyFilters` (`part_003` lines
127-131): `search` is the already lowercased and trimmed input; the
id/name/email fields are compared lowercased, but the phone field is
compared verbatim (`order.address.phone.includes(search)`). -/
def matchesSearchClause (search : String) (o : Order) : Bool :=
  search == "" ||
  jsIncludes (lowerStr o.id) search ||
  optTruthy (o.address.bind Address.name) (fun n => jsIncludes (lowerStr n) search) ||
  optTruthy (o.address.bind Address.phone) (fun p => jsIncludes p search) ||
  optTruthy (o.address.bind Address.email) (fun e => jsIncludes (lowerStr e) search)

/-- The `matchesStatus` clause (`part_003` line 134): the empty dropdown
value is a no-op. -/
def matchesStatusClause (status : Option OrderStatus) (o : Order) : Bool :=
  match status with
  | none => true
  | some s => o.status == s

/-- The `matchesDate` clause (`part_003` lines 137-156): inactive for
`all`; note `matchesDate` stays `true` when `createdAt` is absent
(`if (orderDate)` guards the comparison). -/
def matchesDateClause (ctx : TimeCtx) (d : DateFilter) (o : Order) : Bool :=
  match d with
  | .all => true
  | d => match o.createdAt with
    | none => true
    | some t => decide (rangeStart ctx d ≤ t)

/-- The per-order predicate of `applyFilters` (`part_003` lines
125-159): the conjunction of the three clauses, with the search input
lowercased and trimmed once. -/
def matchesOrder (ctx : TimeCtx) (f : OrderFilters) (o : Order) : Bool :=
  matchesSearchClause (jsTrim (lowerStr f.search)) o &&
  matchesStatusClause f.status o &&
  matchesDateClause ctx f.date o

/-- The client-side view state of the orders page: the mirrored
collection, the materialized filtered set and the current page. -/
structure OrdersView where
  allOrders : List Order
  filteredOrders : List Order
  currentPage : Nat
deriving DecidableEq, Repr

/-- Fixed page size (`itemsPerPage` in `part_003`). -/
def itemsPerPage : Nat := 10

/-- `applyFilters` from `part_003` lines 120-163: recompute the
filtered set from the mirror and reset to page 1. -/
def applyFilters (v : OrdersView) (ctx : TimeCtx) (f : OrderFilters) : OrdersView :=
  { v with filteredOrders := v.allOrders.filter (matchesOrder ctx f), currentPage := 1 }

/-- `changePage` from `part_003` lines 583-587: set the page and
re-render; the mirror and the filtered set are untouched. -/
def changePage (v : OrdersView) (page : Nat) : OrdersView :=
  { v with currentPage := page }

/-- The rows `renderTable` (`part_003` lines 166-247) renders:
`filteredOrders.slice(start, min(start + itemsPerPage, length))` with
`start = (currentPage - 1) * itemsPerPage`.  (The early return for an
empty filtered set renders no rows, which this slice also yields.) -/
def pageOrders (v : OrdersView) : List Order :=
  let start := (v.currentPage - 1) * itemsPerPage
  let stop := min (start + itemsPerPage) v.filteredOrders.length
  (v.filteredOrders.drop start).take (stop - start)

/-- The search predicate exactly as the claim words it: the term is a
case-insensitive substring of the id, the address name, the address
phone or the address email.  (Stated from the spec for comparison with
the source behaviour.) -/
def specSearchCI (t : String) (o : Order) : Bool :=
  t == "" ||
  jsIncludes (lowerStr o.id) t ||
  (o.address.bind Address.name).elim false (fun n => jsIncludes (lowerStr n) t) ||
  (o.address.bind Address.phone).elim false (fun p => jsIncludes (lowerStr p) t) ||
  (o.address.bind Address.email).elim false (fun e => jsIncludes (lowerStr e) t)

/-- The record predicate exactly as the claim words it: all active
predicates must match, the date clause requiring the creation timestamp
to fall in the named range (so a record with no timestamp cannot
match an active date filter). -/
def specMatchesOrderCI (ctx : TimeCtx) (f : OrderFilters) (o : Order) : Bool :=
  specSearchCI (jsTrim (lowerStr f.search)) o &&
  f.status.elim true (fun s => o.status == s) &&
  (match f.date with
    | .all => true
    | d => o.createdAt.elim false (fun t => decide (rangeStart ctx d ≤ t)))

/-- The search predicate as amended: phone is compared verbatim against
the lowercased trimmed term rather than case-insensitively. -/
def specSearchAmended (t : String) (o : Order) : Bool :=
  t == "" ||
  jsIncludes (lowerStr o.id) t ||
  (o.address.bind Address.name).elim false (fun n => jsIncludes (lowerStr n) t) ||
  (o.address.bind Address.phone).elim false (fun p => jsIncludes p t) ||
  (o.address.bind Address.email).elim false (fun e => jsIncludes (lowerStr e) t)

/-- The record predicate as amended: phone compared verbatim, and a
record with no creation timestamp passes any date filter. -/
def specMatchesOrderAmended (ctx : TimeCtx) (f : OrderFilters) (o : Order) : Bool :=
  specSearchAmended (jsTrim (lowerStr f.search)) o &&
  f.status.elim true (fun s => o.status == s) &&
  (match f.date with
    | .all => true
    | d => o.createdAt.elim true (fun t => decide (rangeStart ctx d ≤ t)))

/-- Searching an empty needle inside any haystack succeeds. -/
theorem seqIn_nil_needle (h : List Char) : seqIn [] h = true := by
  cases h <;> simp [seqIn, List.isPrefixOf]

/-- Searching inside an empty haystack finds only the empty needle. -/
theorem seqIn_nil_hay (n : List Char) : seqIn n [] = n.isEmpty := rfl

/-- A nonempty string is not JS-included in the empty string. -/
theorem jsIncludes_empty_hay (t : String) (ht : ¬(t == "") = true) :
    jsIncludes "" t = false := by
  cases t with
  | mk l =>
    cases l with
    | nil => exact absurd rfl ht
    | cons c cs => rfl

/-- The truthiness guard only differs from a plain option test on the
empty string, where the given predicate is already false. -/
theorem optTruthy_eq_elim (x : Option String) (g : String → Bool)
    (hg : g "" = false) : optTruthy x g = x.elim false g := by
  cases x with
  | none => rfl
  | some s =>
    by_cases hs : s = ""
    · subst hs; simp [optTruthy, hg]
    · simp [optTruthy, hs]

/-- The source's search clause equals the amended spec search clause. -/
theorem matchesSearchClause_eq_specAmended (t : String) (o : Order) :
    matchesSearchClause t o = specSearchAmended t o := by
  unfold matchesSearchClause specSearchAmended
  by_cases ht : (t == "") = true
  · simp [ht]
  · have hlow : ∀ s : String, (fun n => jsIncludes (lowerStr n) t) "" = false := by
      intro _
      show jsIncludes (lowerStr "") t = false
      exact jsIncludes_empty_hay t ht
    rw [optTruthy_eq_elim _ _ (hlow ""),
      optTruthy_eq_elim _ _ (jsIncludes_empty_hay t ht),
      optTruthy_eq_elim _ _ (hlow "")]

/-- The filter predicate of the source equals the amended spec
predicate on every record. -/
theorem matchesOrder_eq_specAmended (ctx : TimeCtx) (f : OrderFilters) (o : Order) :
    matchesOrder ctx f o = specMatchesOrderAmended ctx f o := by
  unfold matchesOrder specMatchesOrderAmended matchesStatusClause matchesDateClause
  rw [matchesSearchClause_eq_specAmended]
  cases f.status <;> cases f.date <;> cases o.createdAt <;> rfl

/-- A fixed evaluation instant for the concrete filter examples. -/
def ctxEx : TimeCtx := { todayStart := 1000, weekAgo := 800, monthAgo := 500 }

/-- An order that only a phone search can reach, with an upper-case
phone value. -/
def phoneOrder : Order :=
  { id := "7", status := .confirmed, total := none, createdAt := some 1500,
    address := some { name := none, phone := some "AB", email := none },
    statusHistory := [], updatedAt := none }

/-- An order with no creation timestamp. -/
def noDateOrder : Order :=
  { id := "8", status := .confirmed, total := none, createdAt := none,
    address := none, statusHistory := [], updatedAt := none }

/-- C7 counterexample: (1) the term `"B"` is a case-insensitive
substring of the phone `"AB"`, so the claim includes the record, but the
source compares the lowercased term verbatim against the phone and
filters it out; (2) a record with no creation timestamp cannot fall in
the `today` range, so the claim excludes it, but the source's date
clause passes records with a missing timestamp. -/
theorem applyFilters_counterexample :
    specMatchesOrderCI ctxEx { search := "B", status := none, date := .all } phoneOrder = true ∧
    (applyFilters { allOrders := [phoneOrder], filteredOrders := [], currentPage := 3 }
        ctxEx { search := "B", status := none, date := .all }).filteredOrders = [] ∧
    specMatchesOrderCI ctxEx { search := "", status := none, date := .today } noDateOrder = false ∧
    (applyFilters { allOrders := [noDateOrder], filteredOrders := [], currentPage := 3 }
        ctxEx { search := "", status := none, date := .today }).filteredOrders = [noDateOrder] := by
  refine ⟨by decide, by decide, by decide, by decide⟩

/-- The rendered slice in closed form. -/
theorem pageOrders_eq (v : OrdersView) :
    pageOrders v =
      (v.filteredOrders.drop ((v.currentPage - 1) * itemsPerPage)).take itemsPerPage := by
  simp only [pageOrders]
  set start := (v.currentPage - 1) * itemsPerPage with hstart
  by_cases h : start + itemsPerPage ≤ v.filteredOrders.length
  · have hmin : min (start + itemsPerPage) v.filteredOrders.length - start = itemsPerPage := by
      omega
    rw [hmin]
  · have hmin : min (start + itemsPerPage) v.filteredOrders.length - start =
        v.filteredOrders.length - start := by omega
    rw [hmin]
    have hlen : (v.filteredOrders.drop start).length = v.filteredOrders.length - start :=
      List.length_drop start v.filteredOrders
    rw [List.take_of_length_le (by omega), List.take_of_length_le (by omega)]

/-- C7 (amended): applying any filter combination materializes, from
the mirror, exactly the records matching all active predicates — with
the phone field matched verbatim against the lowercased trimmed term and
records lacking a creation timestamp passing any date filter — and
resets the view to page 1; page navigation only changes the page number,
re-fetching nothing, and each rendered page is the size-10 slice of the
already-materialized filtered set. -/
theorem applyFilters_pagination_amended (v : OrdersView) (ctx : TimeCtx) (f : OrderFilters) :
    (applyFilters v ctx f).currentPage = 1 ∧
    (applyFilters v ctx f).filteredOrders =
      v.allOrders.filter (specMatchesOrderAmended ctx f) ∧
    (∀ p : Nat,
      (changePage (applyFilters v ctx f) p).allOrders = v.allOrders ∧
      (changePage (applyFilters v ctx f) p).filteredOrders =
        (applyFilters v ctx f).filteredOrders ∧
      (changePage (applyFilters v ctx f) p).currentPage = p ∧
      pageOrders (changePage (applyFilters v ctx f) p) =
        ((applyFilters v ctx f).filteredOrders.drop ((p - 1) * itemsPerPage)).take
          itemsPerPage) := by
  refine ⟨rfl, ?_, ?_⟩
  · exact List.filter_congr (fun o _ => matchesOrder_eq_specAmended ctx f o)
  · intro p
    exact ⟨rfl, rfl, rfl, pageOrders_eq _⟩

/-! ## Real-time listeners and the new-arrival notification
(`listenToOrders`, `part_003` lines 54-81; `setupRealtimeUsersListener`,
`part_004` lines 74-99) -/

/-- `docChanges()` entry kinds of a snapshot delivery. -/
inductive ChangeKind
  | added
  | modified
  | removed
deriving DecidableEq, Repr

/-- Number of toasts the orders listener fires for one snapshot
delivery whose rebuilt mirror has `snapshotSize` documents: one toast
when the batch has added documents and the rebuilt mirror is strictly
larger than the added count, else none. -/
def ordersListenerToasts (snapshotSize : Nat) (changes : List ChangeKind) : Nat :=
  if changes.any (fun c => c == .added) then
    if 0 < (changes.filter (fun c => c == .added)).length ∧
        (changes.filter (fun c => c == .added)).length < snapshotSize then 1
    else 0
  else 0

/-- Number of toasts the users listener fires for one snapshot
delivery: the `docChanges().forEach` fires one toast per added document
whenever the rebuilt mirror holds more than one document
(`allUsers.length > 1`) — the comment in the source says "(not initial
load)" but the test does not consult the previous mirror. -/
def usersListenerToasts (snapshotSize : Nat) (changes : List ChangeKind) : Nat :=
  (changes.filter (fun c => c == .added && decide (1 < snapshotSize))).length

/-- C8: at the failing input — the first population of an empty users
mirror with a snapshot of two added documents — the users listener
fires two toasts (one per added document), where the claim requires
none on first population and at most one per batch.  The orders
listener behaves as claimed on the same first-population batch (no
toast) and fires exactly once for one document added to a mirror that
already held two. -/
theorem usersListener_toasts_on_first_population :
    usersListenerToasts 2 [.added, .added] = 2 ∧
    ordersListenerToasts 2 [.added, .added] = 0 ∧
    ordersListenerToasts 3 [.added] = 1 := by
  refine ⟨by decide, by decide, by decide⟩

/-! ## CSV export (`generateCSV`, `part_004` lines 614-627; the orders
exporter `exportOrders`, `part_003` lines 597-643, builds its rows with
the same quote-wrap-without-escaping template) -/

/-- A user document as the users page mirrors it; `createdAt` is
carried as its rendered ISO string. -/
structure UserRecord where
  id : String
  name : Option String
  email : Option String
  phone : Option String
  status : Option String
  city : Option String
  orderCount : Option Nat
  createdAt : Option String
deriving DecidableEq, Repr

/-- The header line of the users CSV, BOM included. -/
def usersCsvHeader : String :=
  "\uFEFFUser ID,Name,Email,Phone,Status,City,Orders,Joined Date\n"

/-- The eight field values of one CSV row, with the `|| ''` / `|| 0` /
`'N/A'` defaults of the source template. -/
def userCsvFields (u : UserRecord) : List String :=
  [u.id, u.name.getD "", u.email.getD "", u.phone.getD "", u.status.getD "",
   u.city.getD "", toString (u.orderCount.getD 0), u.createdAt.getD "N/A"]

/-- The source's field template `"${value}"`: wrap in double quotes with
no escaping of the value. -/
def quoteField (s : String) : String := "\"" ++ s ++ "\""

/-- A row body: the quoted fields joined with commas. -/
def csvRowBody : List String → String
  | [] => ""
  | [f] => quoteField f
  | f :: rest => quoteField f ++ ("," ++ csvRowBody rest)

/-- One emitted row: the body plus the trailing newline. -/
def userCsvLine (u : UserRecord) : String := csvRowBody (userCsvFields u) ++ "\n"

/-- The concatenated rows of the `users.forEach` loop. -/
def csvLines : List UserRecord → String
  | [] => ""
  | u :: rest => userCsvLine u ++ csvLines rest

/-- `generateCSV` from `part_004` lines 614-627 (the download plumbing
dropped): header plus one row per record. -/
def generateCSV (users : List UserRecord) : String :=
  usersCsvHeader ++ csvLines users

/-- Number of newline-terminated lines of an emitted CSV string. -/
def lineCount (s : String) : Nat := s.data.count '\n'

/-- States of the CSV row scanner. -/
inductive CsvMode
  | fieldStart
  | inQuotes
  | afterQuote
deriving DecidableEq, Repr

/-- Standard CSV scanner for a row of quoted fields: every field is
`"..."` with `""` as the escaped double quote; fields are separated by
commas.  Returns the number of fields of a well-formed row, `none` for a
malformed one. -/
def csvScan : List Char → CsvMode → Nat → Option Nat
  | [], .afterQuote, n => some (n + 1)
  | [], .fieldStart, _ => none
  | [], .inQuotes, _ => none
  | c :: cs, .fieldStart, n => if c = '"' then csvScan cs .inQuotes n else none
  | c :: cs, .inQuotes, n =>
    if c = '"' then csvScan cs .afterQuote n else csvScan cs .inQuotes n
  | c :: cs, .afterQuote, n =>
    if c = '"' then csvScan cs .inQuotes n
    else if c = ',' then csvScan cs .fieldStart (n + 1)
    else none

/-- Field count of a row, `none` when the row is not well-formed CSV. -/
def csvFieldCount (s : String) : Option Nat := csvScan s.data .fieldStart 0

/-- A field value that neither breaks the quoting (no double quote) nor
the line structure (no newline). -/
def cleanField (s : String) : Bool :=
  decide ('"' ∉ s.data) && decide ('\n' ∉ s.data)

/-- Scanning quoted content without embedded quotes consumes it up to
the closing quote. -/
theorem csvScan_inQuotes (l : List Char) (hl : '"' ∉ l) (rest : List Char) (n : Nat) :
    csvScan (l ++ '"' :: rest) CsvMode.inQuotes n = csvScan rest CsvMode.afterQuote n := by
  induction l with
  | nil => simp [csvScan]
  | cons c cs ih =>
    have hc : ¬ c = '"' := fun h => hl (h ▸ List.mem_cons_self c cs)
    have hcs : '"' ∉ cs := fun h => hl (List.mem_cons_of_mem c h)
    simp only [List.cons_append, csvScan, if_neg hc]
    exact ih hcs

/-- Scanning one whole quoted field without embedded quotes. -/
theorem csvScan_field (v : List Char) (hv : '"' ∉ v) (rest : List Char) (n : Nat) :
    csvScan ('"' :: (v ++ '"' :: rest)) CsvMode.fieldStart n =
      csvScan rest CsvMode.afterQuote n := by
  simp only [csvScan, if_pos rfl]
  exact csvScan_inQuotes v hv rest n

/-- The character list of a quoted field. -/
theorem quoteField_data (s : String) :
    (quoteField s).data = '"' :: (s.data ++ ['"']) := by
  simp [quoteField, String.data_append]

/-- A nonempty row of quote-free fields scans to its field count. -/
theorem csvScan_rowBody (fields : List String) (hne : fields ≠ [])
    (hclean : ∀ f ∈ fields, '"' ∉ f.data) (n : Nat) :
    csvScan (csvRowBody fields).data CsvMode.fieldStart n = some (n + fields.length) := by
  induction fields generalizing n with
  | nil => exact absurd rfl hne
  | cons f rest ih =>
    have hf : '"' ∉ f.data := hclean f (List.mem_cons_self f rest)
    cases rest with
    | nil =>
      have hdata : (csvRowBody [f]).data = '"' :: (f.data ++ '"' :: []) := by
        simpa [csvRowBody] using quoteField_data f
      rw [hdata, csvScan_field f.data hf [] n]
      rfl
    | cons g rest2 =>
      have hdata : (csvRowBody (f :: g :: rest2)).data =
          '"' :: (f.data ++ '"' :: (',' :: (csvRowBody (g :: rest2)).data)) := by
        simp [csvRowBody, String.data_append, quoteField_data]
      rw [hdata, csvScan_field f.data hf _ n]
      have hcomma : csvScan (',' :: (csvRowBody (g :: rest2)).data) CsvMode.afterQuote n =
          csvScan (csvRowBody (g :: rest2)).data CsvMode.fieldStart (n + 1) := by
        simp [csvScan]
      rw [hcomma, ih (by simp) (fun x hx => hclean x (List.mem_cons_of_mem f hx)) (n + 1)]
      simp only [List.length_cons, Option.some.injEq]
      omega

/-- Newlines of a concatenation add up. -/
theorem lineCount_append (a b : String) :
    lineCount (a ++ b) = lineCount a + lineCount b := by
  simp [lineCount, String.data_append, List.count_append]

/-- A row body over newline-free fields contains no newline. -/
theorem csvRowBody_no_newline (fields : List String)
    (h : ∀ f ∈ fields, '\n' ∉ f.data) : lineCount (csvRowBody fields) = 0 := by
  induction fields with
  | nil => rfl
  | cons f rest ih =>
    have hf : '\n' ∉ f.data := h f (List.mem_cons_self f rest)
    have hq : lineCount (quoteField f) = 0 := by
      simp [lineCount, quoteField_data, List.count_append, List.count_cons,
        List.count_eq_zero.mpr hf]
    cases rest with
    | nil => simpa [csvRowBody] using hq
    | cons g rest2 =>
      have hrest := ih (fun x hx => h x (List.mem_cons_of_mem f hx))
      calc lineCount (csvRowBody (f :: g :: rest2))
          = lineCount (quoteField f) + (lineCount "," + lineCount (csvRowBody (g :: rest2))) := by
            simp [csvRowBody, lineCount_append]
        _ = 0 := by rw [hq, hrest]; rfl

/-- A user record whose name embeds a double quote — the `"${name}"`
template emits `"Bob "B""`. -/
def quoteUser : UserRecord :=
  { id := "u1", name := some "Bob \"B\"", email := some "b@freshmart",
    phone := some "9", status := some "active", city := some "Pune",
    orderCount := some 2, createdAt := some "2024-01-01T00:00:00Z" }

/-- A user record whose name embeds a newline. -/
def newlineUser : UserRecord :=
  { id := "u2", name := some "a\nb", email := none, phone := none,
    status := none, city := none, orderCount := none, createdAt := none }

/-- C9 counterexample: a field value containing a double quote is
emitted unescaped, so its row is not a well-formed CSV row (the scanner
rejects it); and a field value containing a newline makes the export of
one record span three lines rather than the claimed two. -/
theorem generateCSV_counterexample :
    csvFieldCount (csvRowBody (userCsvFields quoteUser)) = none ∧
    lineCount (generateCSV [newlineUser]) = 3 := by
  refine ⟨by decide, by decide⟩

/-- C9 (amended): for records none of whose rendered field values
embeds a double quote or a newline, the users CSV export has exactly
N+1 lines (header plus one per record) and every row is a well-formed
CSV row of 8 comma-delimited quoted fields (embedded commas are safe
inside the quotes); a field value embedding a double quote is written
unescaped and breaks the row. -/
theorem generateCSV_clean_well_formed (users : List UserRecord)
    (h : ∀ u ∈ users, ∀ f ∈ userCsvFields u, cleanField f = true) :
    lineCount (generateCSV users) = users.length + 1 ∧
    ∀ u ∈ users, csvFieldCount (csvRowBody (userCsvFields u)) = some 8 := by
  constructor
  · have hheader : lineCount usersCsvHeader = 1 := by decide
    have hrows : ∀ us : List UserRecord,
        (∀ u ∈ us, ∀ f ∈ userCsvFields u, cleanField f = true) →
        lineCount (csvLines us) = us.length := by
      intro us
      induction us with
      | nil => intro _; rfl
      | cons u rest ih =>
        intro hus
        have hu := hus u (List.mem_cons_self u rest)
        have hnl : ∀ f ∈ userCsvFields u, '\n' ∉ f.data := by
          intro f hf
          have := hu f hf
          simp [cleanField] at this
          exact this.2
        have : lineCount (userCsvLine u) = 1 := by
          simp [userCsvLine, lineCount_append, csvRowBody_no_newline _ hnl]
          rfl
        calc lineCount (csvLines (u :: rest))
            = lineCount (userCsvLine u) + lineCount (csvLines rest) := by
              simp [csvLines, lineCount_append]
          _ = 1 + rest.length := by
              rw [this, ih (fun x hx => hus x (List.mem_cons_of_mem u hx))]
          _ = (u :: rest).length := by simp; omega
    rw [generateCSV, lineCount_append, hheader, hrows users h]
    omega
  · intro u hu
    have hq : ∀ f ∈ userCsvFields u, '"' ∉ f.data := by
      intro f hf
      have := h u hu f hf
      simp [cleanField] at this
      exact this.1
    have := csvScan_rowBody (userCsvFields u) (by simp [userCsvFields]) hq 0
    simpa [csvFieldCount, userCsvFields] using this

/-- A user record whose name embeds a comma but no quote or newline. -/
def commaUser : UserRecord :=
  { id := "u3", name := some "Doe, Jane", email := some "dj@freshmart",
    phone := some "9", status := some "active", city := some "Pune",
    orderCount := some 1, createdAt := some "2024-01-02T00:00:00Z" }

/-- C9 witness: the amended theorem applied to one concrete record
whose name embeds a comma. -/
theorem generateCSV_clean_well_formed_witness :
    lineCount (generateCSV [commaUser]) = 1 + 1 ∧
    ∀ u ∈ [commaUser], csvFieldCount (csvRowBody (userCsvFields u)) = some 8 :=
  generateCSV_clean_well_formed [commaUser] (by decide)

end FreshMart
